import Mathlib

/-!
Shallow embedding of the bisection root-finder in `appBiseccion.py`.

Numbers are modelled as exact rationals `ℚ` (the spec reasons in exact
arithmetic).  The guarded evaluator `f` of the source returns a normal real
or the NaN sentinel; here an evaluator is a function `ℚ → Option ℚ`, with
`none` playing the role of the UNDEFINED / NaN sentinel.  The underlying
(unguarded) compiled evaluator can, per the source checks, also produce a
complex number, NaN, infinity, or raise; that outcome space is `RawResult`.
-/

namespace Biseccion

/-- Possible results of the raw compiled evaluator `f_lambda` at one input:
a finite real value, a complex value, NaN, an infinity, or a raised
exception (`except Exception` branch in the source). -/
inductive RawResult where
  | ok (v : ℚ)
  | complexVal
  | nanVal
  | infVal
  | raised
deriving DecidableEq

/-- The guarded evaluator `f` of the source (lines 74-81): call the compiled
evaluator; if it raises, or the result is complex, NaN or ±infinity, return
the UNDEFINED sentinel (`np.nan`, here `none`); otherwise return the finite
value. -/
def fGuard (g : ℚ → RawResult) (x : ℚ) : Option ℚ :=
  match g x with
  | RawResult.ok v => some v
  | RawResult.complexVal => none
  | RawResult.nanVal => none
  | RawResult.infVal => none
  | RawResult.raised => none

/-- One row of the iteration table (source line 130):
`[iteraciones, a_iter, b_iter, c, x_new, f_x_new]`. -/
structure IterationRecord where
  index : ℕ
  a : ℚ
  b : ℚ
  halfWidth : ℚ
  midpoint : ℚ
  value : ℚ
deriving DecidableEq

/-- The mutable variables of one run of the source: the user-supplied bounds
`a`, `b` (the widget values, lines 38-39), the working copies `a_iter`,
`b_iter` (lines 110-111), the counter `iteraciones` (line 106) and the
table rows (line 107). -/
structure EngineState where
  a : ℚ
  b : ℚ
  a_iter : ℚ
  b_iter : ℚ
  iteraciones : ℕ
  rows : List IterationRecord
deriving DecidableEq

/-- State at the top of the `while True` loop (lines 106-111): counter 0,
empty table, working bounds copied from the inputs. -/
def initState (a b : ℚ) : EngineState :=
  ⟨a, b, a, b, 0, []⟩

/-- How a run of the loop ends (the four `break` paths of lines 117-148). -/
inductive LoopExit where
  | exactRoot (x : ℚ)
  | approximateRoot (x err : ℚ)
  | maxIterationsReached (x : ℚ)
  | undefinedEncountered (x : ℚ) (n : ℕ)
deriving DecidableEq

/-- The Python product test `f(a_iter) * f_x_new < 0` (line 151), where
`f(a_iter)` may be NaN: in Python `nan * v < 0` is `False`, so an undefined
`f(a_iter)` lands in the `else` branch. -/
def prodNeg (fa : Option ℚ) (v : ℚ) : Bool :=
  match fa with
  | some va => decide (va * v < 0)
  | none => false

/-- Interval selection (lines 150-154): if `f(a_iter) * f_x_new < 0` the new
bracket is `(a_iter, x_new)` (`b_iter = x_new`), otherwise `(x_new, b_iter)`
(`a_iter = x_new`). -/
def selectInterval (f : ℚ → Option ℚ) (a_iter b_iter x_new f_x_new : ℚ) : ℚ × ℚ :=
  if prodNeg (f a_iter) f_x_new then (a_iter, x_new) else (x_new, b_iter)

/-- The `while True` loop of lines 117-154.  Each pass increments
`iteraciones`, computes `c = (b_iter - a_iter) / 2` and `x_new = a_iter + c`,
evaluates the midpoint, and then follows the source's four stop checks in
order: undefined midpoint (no row appended), exact root, `c < tol`,
`iteraciones >= max_iter`; otherwise it selects the next interval and loops. -/
def bisectLoop (f : ℚ → Option ℚ) (tol : ℚ) (max_iter : ℕ) (s : EngineState) :
    EngineState × LoopExit :=
  match f (s.a_iter + (s.b_iter - s.a_iter) / 2) with
  | none =>
      ({ s with iteraciones := s.iteraciones + 1 },
        LoopExit.undefinedEncountered (s.a_iter + (s.b_iter - s.a_iter) / 2)
          (s.iteraciones + 1))
  | some f_x_new =>
      if f_x_new = 0 then
        ({ s with iteraciones := s.iteraciones + 1,
                  rows := s.rows ++ [⟨s.iteraciones + 1, s.a_iter, s.b_iter,
                    (s.b_iter - s.a_iter) / 2,
                    s.a_iter + (s.b_iter - s.a_iter) / 2, f_x_new⟩] },
          LoopExit.exactRoot (s.a_iter + (s.b_iter - s.a_iter) / 2))
      else if (s.b_iter - s.a_iter) / 2 < tol then
        ({ s with iteraciones := s.iteraciones + 1,
                  rows := s.rows ++ [⟨s.iteraciones + 1, s.a_iter, s.b_iter,
                    (s.b_iter - s.a_iter) / 2,
                    s.a_iter + (s.b_iter - s.a_iter) / 2, f_x_new⟩] },
          LoopExit.approximateRoot (s.a_iter + (s.b_iter - s.a_iter) / 2)
            ((s.b_iter - s.a_iter) / 2))
      else if max_iter ≤ s.iteraciones + 1 then
        ({ s with iteraciones := s.iteraciones + 1,
                  rows := s.rows ++ [⟨s.iteraciones + 1, s.a_iter, s.b_iter,
                    (s.b_iter - s.a_iter) / 2,
                    s.a_iter + (s.b_iter - s.a_iter) / 2, f_x_new⟩] },
          LoopExit.maxIterationsReached (s.a_iter + (s.b_iter - s.a_iter) / 2))
      else
        bisectLoop f tol max_iter
          { s with
            a_iter := (selectInterval f s.a_iter s.b_iter
              (s.a_iter + (s.b_iter - s.a_iter) / 2) f_x_new).1,
            b_iter := (selectInterval f s.a_iter s.b_iter
              (s.a_iter + (s.b_iter - s.a_iter) / 2) f_x_new).2,
            iteraciones := s.iteraciones + 1,
            rows := s.rows ++ [⟨s.iteraciones + 1, s.a_iter, s.b_iter,
              (s.b_iter - s.a_iter) / 2,
              s.a_iter + (s.b_iter - s.a_iter) / 2, f_x_new⟩] }
termination_by max_iter - s.iteraciones
decreasing_by
  omega

/-- Terminal classification of a whole run (§3 Outcome of the spec, with the
two `InvalidBracket` reasons split into their own constructors). -/
inductive Outcome where
  | invalidBracketEndpointUndefined
  | invalidBracketSameSign
  | exactRoot (x : ℚ)
  | approximateRoot (x err : ℚ)
  | maxIterationsReached (x : ℚ)
  | undefinedEncountered (x : ℚ) (n : ℕ)
deriving DecidableEq

/-- Map a loop exit to the run outcome. -/
def ofExit : LoopExit → Outcome
  | LoopExit.exactRoot x => Outcome.exactRoot x
  | LoopExit.approximateRoot x e => Outcome.approximateRoot x e
  | LoopExit.maxIterationsReached x => Outcome.maxIterationsReached x
  | LoopExit.undefinedEncountered x n => Outcome.undefinedEncountered x n

/-- A whole run (lines 84-154): evaluate `f` at the two endpoints; if either
is undefined stop with `InvalidBracket("endpoint undefined")` (lines 88-90);
if `f(a) * f(b) > 0` stop with `InvalidBracket("same sign")` (lines 92-96);
otherwise run the bisection loop from the copied bounds. -/
def runBisection (f : ℚ → Option ℚ) (a b tol : ℚ) (max_iter : ℕ) :
    EngineState × Outcome :=
  match f a, f b with
  | some f_a, some f_b =>
      if f_a * f_b > 0 then (initState a b, Outcome.invalidBracketSameSign)
      else
        let r := bisectLoop f tol max_iter (initState a b)
        (r.1, ofExit r.2)
  | _, _ => (initState a b, Outcome.invalidBracketEndpointUndefined)


/-- One pass of the loop body when it does not break: `none` when the pass
hits one of the four `break` paths, `some s'` with the state at the top of
the next pass otherwise.  Mirrors lines 117-154 of the source exactly as
`bisectLoop` does; used to talk about the states the loop visits. -/
def loopStep (f : ℚ → Option ℚ) (tol : ℚ) (max_iter : ℕ) (s : EngineState) :
    Option EngineState :=
  match f (s.a_iter + (s.b_iter - s.a_iter) / 2) with
  | none => none
  | some f_x_new =>
      if f_x_new = 0 then none
      else if (s.b_iter - s.a_iter) / 2 < tol then none
      else if max_iter ≤ s.iteraciones + 1 then none
      else
        some { s with
          a_iter := (selectInterval f s.a_iter s.b_iter
            (s.a_iter + (s.b_iter - s.a_iter) / 2) f_x_new).1,
          b_iter := (selectInterval f s.a_iter s.b_iter
            (s.a_iter + (s.b_iter - s.a_iter) / 2) f_x_new).2,
          iteraciones := s.iteraciones + 1,
          rows := s.rows ++ [⟨s.iteraciones + 1, s.a_iter, s.b_iter,
            (s.b_iter - s.a_iter) / 2,
            s.a_iter + (s.b_iter - s.a_iter) / 2, f_x_new⟩] }

/-- `ReachesIter f tol max_iter s t`: starting the loop at state `s`, state
`t` is seen at the top of some (possibly later) pass. -/
inductive ReachesIter (f : ℚ → Option ℚ) (tol : ℚ) (max_iter : ℕ) :
    EngineState → EngineState → Prop where
  | refl (s : EngineState) : ReachesIter f tol max_iter s s
  | step (s t u : EngineState) : ReachesIter f tol max_iter s t →
      loopStep f tol max_iter t = some u → ReachesIter f tol max_iter s u

theorem prodNeg_some (va v : ℚ) : prodNeg (some va) v = decide (va * v < 0) := rfl

theorem prodNeg_none (v : ℚ) : prodNeg none v = false := rfl

/-! Unfolding equations for the loop, one per exit/continue path -/

theorem bisectLoop_none (f : ℚ → Option ℚ) (tol : ℚ) (max_iter : ℕ) (s : EngineState)
    (h : f (s.a_iter + (s.b_iter - s.a_iter) / 2) = none) :
    bisectLoop f tol max_iter s =
      ({ s with iteraciones := s.iteraciones + 1 },
        LoopExit.undefinedEncountered (s.a_iter + (s.b_iter - s.a_iter) / 2)
          (s.iteraciones + 1)) := by
  rw [bisectLoop, h]

theorem bisectLoop_exact (f : ℚ → Option ℚ) (tol : ℚ) (max_iter : ℕ) (s : EngineState)
    (v : ℚ) (h : f (s.a_iter + (s.b_iter - s.a_iter) / 2) = some v) (hv : v = 0) :
    bisectLoop f tol max_iter s =
      ({ s with iteraciones := s.iteraciones + 1,
                rows := s.rows ++ [⟨s.iteraciones + 1, s.a_iter, s.b_iter,
                  (s.b_iter - s.a_iter) / 2,
                  s.a_iter + (s.b_iter - s.a_iter) / 2, v⟩] },
        LoopExit.exactRoot (s.a_iter + (s.b_iter - s.a_iter) / 2)) := by
  subst hv
  rw [bisectLoop, h]
  simp

theorem bisectLoop_tol (f : ℚ → Option ℚ) (tol : ℚ) (max_iter : ℕ) (s : EngineState)
    (v : ℚ) (h : f (s.a_iter + (s.b_iter - s.a_iter) / 2) = some v) (hv : ¬ v = 0)
    (htol : (s.b_iter - s.a_iter) / 2 < tol) :
    bisectLoop f tol max_iter s =
      ({ s with iteraciones := s.iteraciones + 1,
                rows := s.rows ++ [⟨s.iteraciones + 1, s.a_iter, s.b_iter,
                  (s.b_iter - s.a_iter) / 2,
                  s.a_iter + (s.b_iter - s.a_iter) / 2, v⟩] },
        LoopExit.approximateRoot (s.a_iter + (s.b_iter - s.a_iter) / 2)
          ((s.b_iter - s.a_iter) / 2)) := by
  rw [bisectLoop, h]
  simp [hv, htol]

theorem bisectLoop_max (f : ℚ → Option ℚ) (tol : ℚ) (max_iter : ℕ) (s : EngineState)
    (v : ℚ) (h : f (s.a_iter + (s.b_iter - s.a_iter) / 2) = some v) (hv : ¬ v = 0)
    (htol : ¬ (s.b_iter - s.a_iter) / 2 < tol) (hmax : max_iter ≤ s.iteraciones + 1) :
    bisectLoop f tol max_iter s =
      ({ s with iteraciones := s.iteraciones + 1,
                rows := s.rows ++ [⟨s.iteraciones + 1, s.a_iter, s.b_iter,
                  (s.b_iter - s.a_iter) / 2,
                  s.a_iter + (s.b_iter - s.a_iter) / 2, v⟩] },
        LoopExit.maxIterationsReached (s.a_iter + (s.b_iter - s.a_iter) / 2)) := by
  rw [bisectLoop, h]
  simp [hv, htol, hmax]

theorem bisectLoop_cont (f : ℚ → Option ℚ) (tol : ℚ) (max_iter : ℕ) (s : EngineState)
    (v : ℚ) (h : f (s.a_iter + (s.b_iter - s.a_iter) / 2) = some v) (hv : ¬ v = 0)
    (htol : ¬ (s.b_iter - s.a_iter) / 2 < tol) (hmax : ¬ max_iter ≤ s.iteraciones + 1) :
    bisectLoop f tol max_iter s =
      bisectLoop f tol max_iter
        { s with
          a_iter := (selectInterval f s.a_iter s.b_iter
            (s.a_iter + (s.b_iter - s.a_iter) / 2) v).1,
          b_iter := (selectInterval f s.a_iter s.b_iter
            (s.a_iter + (s.b_iter - s.a_iter) / 2) v).2,
          iteraciones := s.iteraciones + 1,
          rows := s.rows ++ [⟨s.iteraciones + 1, s.a_iter, s.b_iter,
            (s.b_iter - s.a_iter) / 2,
            s.a_iter + (s.b_iter - s.a_iter) / 2, v⟩] } := by
  conv_lhs => rw [bisectLoop, h]
  simp [hv, htol, hmax]

/-! Loop invariants -/

theorem loop_frame (f : ℚ → Option ℚ) (tol : ℚ) (max_iter : ℕ) (s : EngineState) :
    (bisectLoop f tol max_iter s).1.a = s.a ∧ (bisectLoop f tol max_iter s).1.b = s.b := by
  induction s using bisectLoop.induct f tol max_iter with
  | case1 s h => rw [bisectLoop, h]; exact ⟨rfl, rfl⟩
  | case2 s h => rw [bisectLoop, h]; simp
  | case3 s v h hv htol => rw [bisectLoop, h]; simp [hv, htol]
  | case4 s v h hv htol hmax => rw [bisectLoop, h]; simp [hv, htol, hmax]
  | case5 s v h hv htol hmax ih =>
      rw [bisectLoop, h]
      simp only [if_neg hv, if_neg htol, if_neg hmax]
      exact ih

theorem loop_iters_le (f : ℚ → Option ℚ) (tol : ℚ) (max_iter : ℕ) (s : EngineState)
    (hs : s.iteraciones < max_iter) :
    (bisectLoop f tol max_iter s).1.iteraciones ≤ max_iter := by
  induction s using bisectLoop.induct f tol max_iter with
  | case1 s h => rw [bisectLoop, h]; exact hs
  | case2 s h => rw [bisectLoop, h]; simpa using hs
  | case3 s v h hv htol => rw [bisectLoop, h]; simp [hv, htol]; omega
  | case4 s v h hv htol hmax => rw [bisectLoop, h]; simp [hv, htol, hmax]; omega
  | case5 s v h hv htol hmax ih =>
      rw [bisectLoop, h]
      simp only [if_neg hv, if_neg htol, if_neg hmax]
      exact ih (by simpa using Nat.lt_of_not_le hmax)



theorem selectInterval_width (f : ℚ → Option ℚ) (a b v : ℚ) :
    (selectInterval f a b (a + (b - a) / 2) v).2
      - (selectInterval f a b (a + (b - a) / 2) v).1 = (b - a) / 2 := by
  unfold selectInterval
  split <;> ring

theorem half_pow (w0 : ℚ) (n : ℕ) : w0 / 2 ^ n / 2 = w0 / 2 ^ (n + 1) := by
  rw [pow_succ, div_div]

theorem loop_halfWidth (f : ℚ → Option ℚ) (tol : ℚ) (max_iter : ℕ) (w0 : ℚ)
    (s : EngineState)
    (hw : s.b_iter - s.a_iter = w0 / 2 ^ s.iteraciones)
    (hrows : ∀ r ∈ s.rows, r.halfWidth = w0 / 2 ^ r.index) :
    ∀ r ∈ (bisectLoop f tol max_iter s).1.rows, r.halfWidth = w0 / 2 ^ r.index := by
  induction s using bisectLoop.induct f tol max_iter with
  | case1 s h => rw [bisectLoop_none f tol max_iter s h]; exact hrows
  | case2 s h =>
      rw [bisectLoop_exact f tol max_iter s 0 h rfl]
      intro r hr
      simp only [List.mem_append, List.mem_singleton] at hr
      rcases hr with hr | hr
      · exact hrows r hr
      · subst hr
        show (s.b_iter - s.a_iter) / 2 = w0 / 2 ^ (s.iteraciones + 1)
        rw [hw, half_pow]
  | case3 s v h hv htol =>
      rw [bisectLoop_tol f tol max_iter s v h hv htol]
      intro r hr
      simp only [List.mem_append, List.mem_singleton] at hr
      rcases hr with hr | hr
      · exact hrows r hr
      · subst hr
        show (s.b_iter - s.a_iter) / 2 = w0 / 2 ^ (s.iteraciones + 1)
        rw [hw, half_pow]
  | case4 s v h hv htol hmax =>
      rw [bisectLoop_max f tol max_iter s v h hv htol hmax]
      intro r hr
      simp only [List.mem_append, List.mem_singleton] at hr
      rcases hr with hr | hr
      · exact hrows r hr
      · subst hr
        show (s.b_iter - s.a_iter) / 2 = w0 / 2 ^ (s.iteraciones + 1)
        rw [hw, half_pow]
  | case5 s v h hv htol hmax ih =>
      rw [bisectLoop_cont f tol max_iter s v h hv htol hmax]
      apply ih
      · show (selectInterval f s.a_iter s.b_iter
            (s.a_iter + (s.b_iter - s.a_iter) / 2) v).2
          - (selectInterval f s.a_iter s.b_iter
            (s.a_iter + (s.b_iter - s.a_iter) / 2) v).1 = w0 / 2 ^ (s.iteraciones + 1)
        rw [selectInterval_width, hw, half_pow]
      · intro r hr
        simp only [List.mem_append, List.mem_singleton] at hr
        rcases hr with hr | hr
        · exact hrows r hr
        · subst hr
          show (s.b_iter - s.a_iter) / 2 = w0 / 2 ^ (s.iteraciones + 1)
          rw [hw, half_pow]

theorem appended_map (s : EngineState) (v : ℚ)
    (hn : s.iteraciones = s.rows.length)
    (hmap : s.rows.map IterationRecord.index = List.range' 1 s.rows.length) :
    (s.rows ++ [(⟨s.iteraciones + 1, s.a_iter, s.b_iter, (s.b_iter - s.a_iter) / 2,
        s.a_iter + (s.b_iter - s.a_iter) / 2, v⟩ : IterationRecord)]).map IterationRecord.index
      = List.range' 1 (s.rows ++ [(⟨s.iteraciones + 1, s.a_iter, s.b_iter,
          (s.b_iter - s.a_iter) / 2,
          s.a_iter + (s.b_iter - s.a_iter) / 2, v⟩ : IterationRecord)]).length := by
  rw [List.map_append, hmap, List.length_append]
  simp only [List.map_cons, List.map_nil, List.length_cons, List.length_nil]
  rw [List.range'_concat]
  congr 2
  omega

theorem loop_trace (f : ℚ → Option ℚ) (tol : ℚ) (max_iter : ℕ) (s : EngineState)
    (hn : s.iteraciones = s.rows.length)
    (hmap : s.rows.map IterationRecord.index = List.range' 1 s.rows.length) :
    ((bisectLoop f tol max_iter s).1.rows.map IterationRecord.index
        = List.range' 1 (bisectLoop f tol max_iter s).1.rows.length)
    ∧ (∀ x n, (bisectLoop f tol max_iter s).2 = LoopExit.undefinedEncountered x n →
        (bisectLoop f tol max_iter s).1.rows.length + 1 = n
          ∧ (bisectLoop f tol max_iter s).1.iteraciones = n)
    ∧ ((∀ x n, (bisectLoop f tol max_iter s).2 ≠ LoopExit.undefinedEncountered x n) →
        (bisectLoop f tol max_iter s).1.rows.length
          = (bisectLoop f tol max_iter s).1.iteraciones)
    ∧ s.iteraciones < (bisectLoop f tol max_iter s).1.iteraciones := by
  induction s using bisectLoop.induct f tol max_iter with
  | case1 s h =>
      rw [bisectLoop_none f tol max_iter s h]
      refine ⟨hmap, ?_, ?_, ?_⟩
      · intro x n heq
        cases heq
        refine ⟨?_, rfl⟩
        show s.rows.length + 1 = s.iteraciones + 1
        omega
      · intro hne
        exact absurd rfl (hne _ _)
      · exact Nat.lt_succ_self _
  | case2 s h =>
      rw [bisectLoop_exact f tol max_iter s 0 h rfl]
      refine ⟨appended_map s 0 hn hmap, ?_, ?_, ?_⟩
      · intro x n heq
        cases heq
      · intro _
        show (s.rows ++ [_]).length = s.iteraciones + 1
        rw [List.length_append]
        simp only [List.length_cons, List.length_nil]
        omega
      · exact Nat.lt_succ_self _
  | case3 s v h hv htol =>
      rw [bisectLoop_tol f tol max_iter s v h hv htol]
      refine ⟨appended_map s v hn hmap, ?_, ?_, ?_⟩
      · intro x n heq
        cases heq
      · intro _
        show (s.rows ++ [_]).length = s.iteraciones + 1
        rw [List.length_append]
        simp only [List.length_cons, List.length_nil]
        omega
      · exact Nat.lt_succ_self _
  | case4 s v h hv htol hmax =>
      rw [bisectLoop_max f tol max_iter s v h hv htol hmax]
      refine ⟨appended_map s v hn hmap, ?_, ?_, ?_⟩
      · intro x n heq
        cases heq
      · intro _
        show (s.rows ++ [_]).length = s.iteraciones + 1
        rw [List.length_append]
        simp only [List.length_cons, List.length_nil]
        omega
      · exact Nat.lt_succ_self _
  | case5 s v h hv htol hmax ih =>
      rw [bisectLoop_cont f tol max_iter s v h hv htol hmax]
      have hn2 : s.iteraciones + 1 = (s.rows ++ [(⟨s.iteraciones + 1, s.a_iter,
          s.b_iter, (s.b_iter - s.a_iter) / 2,
          s.a_iter + (s.b_iter - s.a_iter) / 2, v⟩ : IterationRecord)]).length := by
        rw [List.length_append]
        simp only [List.length_cons, List.length_nil]
        omega
      have hres := ih hn2 (appended_map s v hn hmap)
      exact ⟨hres.1, hres.2.1, hres.2.2.1, Nat.lt_trans (Nat.lt_succ_self _) hres.2.2.2⟩


theorem selectInterval_lt (f : ℚ → Option ℚ) (a b v : ℚ) (hab : a < b) :
    (selectInterval f a b (a + (b - a) / 2) v).1
      < (selectInterval f a b (a + (b - a) / 2) v).2 := by
  unfold selectInterval
  split
  · show a < a + (b - a) / 2
    linarith
  · show a + (b - a) / 2 < b
    linarith

theorem loop_no_tol_exit (f : ℚ → Option ℚ) (tol : ℚ) (max_iter : ℕ)
    (s : EngineState) (htol : tol ≤ 0) (hab : s.a_iter < s.b_iter) :
    ∀ x e, (bisectLoop f tol max_iter s).2 ≠ LoopExit.approximateRoot x e := by
  induction s using bisectLoop.induct f tol max_iter with
  | case1 s h =>
      rw [bisectLoop_none f tol max_iter s h]
      intro x e heq
      cases heq
  | case2 s h =>
      rw [bisectLoop_exact f tol max_iter s 0 h rfl]
      intro x e heq
      cases heq
  | case3 s v h hv hlt =>
      exfalso
      have : (0 : ℚ) < (s.b_iter - s.a_iter) / 2 := by linarith
      linarith
  | case4 s v h hv hlt hmax =>
      rw [bisectLoop_max f tol max_iter s v h hv hlt hmax]
      intro x e heq
      cases heq
  | case5 s v h hv hlt hmax ih =>
      rw [bisectLoop_cont f tol max_iter s v h hv hlt hmax]
      exact ih (selectInterval_lt f s.a_iter s.b_iter v hab)

/-- A continuing pass preserves a strict sign change across the bracket. -/
theorem loopStep_sign (f : ℚ → Option ℚ) (tol : ℚ) (max_iter : ℕ)
    (t u : EngineState) (hstep : loopStep f tol max_iter t = some u)
    (va vb : ℚ) (hta : f t.a_iter = some va) (htb : f t.b_iter = some vb)
    (hprod : va * vb < 0) :
    ∃ wa wb, f u.a_iter = some wa ∧ f u.b_iter = some wb ∧ wa * wb < 0 := by
  rw [loopStep] at hstep
  rcases hfx : f (t.a_iter + (t.b_iter - t.a_iter) / 2) with _ | v
  · rw [hfx] at hstep
    cases hstep
  · rw [hfx] at hstep
    dsimp only at hstep
    split_ifs at hstep with hv hlt hmax
    have hu := Option.some.inj hstep
    subst hu
    by_cases hp : prodNeg (f t.a_iter) v = true
    · have hneg : va * v < 0 := by
        rw [hta, prodNeg_some] at hp
        exact of_decide_eq_true hp
      refine ⟨va, v, ?_, ?_, hneg⟩
      · show f (selectInterval f t.a_iter t.b_iter
            (t.a_iter + (t.b_iter - t.a_iter) / 2) v).1 = some va
        rw [selectInterval, if_pos hp]
        exact hta
      · show f (selectInterval f t.a_iter t.b_iter
            (t.a_iter + (t.b_iter - t.a_iter) / 2) v).2 = some v
        rw [selectInterval, if_pos hp]
        exact hfx
    · have hnonneg : 0 ≤ va * v := by
        rw [hta, prodNeg_some] at hp
        simpa using hp
      have hvne : v ≠ 0 := hv
      refine ⟨v, vb, ?_, ?_, ?_⟩
      · show f (selectInterval f t.a_iter t.b_iter
            (t.a_iter + (t.b_iter - t.a_iter) / 2) v).1 = some v
        rw [selectInterval, if_neg hp]
        exact hfx
      · show f (selectInterval f t.a_iter t.b_iter
            (t.a_iter + (t.b_iter - t.a_iter) / 2) v).2 = some vb
        rw [selectInterval, if_neg hp]
        exact htb
      · rcases lt_trichotomy va 0 with hva | hva | hva
        · have hvb : 0 < vb := by nlinarith
          have hvle : v ≤ 0 := by
            by_contra hgt
            push_neg at hgt
            nlinarith
          have hvneg : v < 0 := lt_of_le_of_ne hvle hvne
          exact mul_neg_of_neg_of_pos hvneg hvb
        · exfalso
          rw [hva, zero_mul] at hprod
          exact lt_irrefl 0 hprod
        · have hvb : vb < 0 := by nlinarith
          have hvge : 0 ≤ v := by
            by_contra hlt2
            push_neg at hlt2
            nlinarith
          have hvpos : 0 < v := lt_of_le_of_ne hvge (Ne.symm hvne)
          exact mul_neg_of_pos_of_neg hvpos hvb



/-! Run-level unfolding equations -/

theorem runBisection_undef_a (f : ℚ → Option ℚ) (a b tol : ℚ) (max_iter : ℕ)
    (hfa : f a = none) :
    runBisection f a b tol max_iter
      = (initState a b, Outcome.invalidBracketEndpointUndefined) := by
  rw [runBisection, hfa]

theorem runBisection_undef_b (f : ℚ → Option ℚ) (a b tol : ℚ) (max_iter : ℕ)
    (f_a : ℚ) (hfa : f a = some f_a) (hfb : f b = none) :
    runBisection f a b tol max_iter
      = (initState a b, Outcome.invalidBracketEndpointUndefined) := by
  rw [runBisection, hfa, hfb]

theorem runBisection_sameSign (f : ℚ → Option ℚ) (a b tol : ℚ) (max_iter : ℕ)
    (f_a f_b : ℚ) (hfa : f a = some f_a) (hfb : f b = some f_b)
    (hpos : f_a * f_b > 0) :
    runBisection f a b tol max_iter = (initState a b, Outcome.invalidBracketSameSign) := by
  rw [runBisection, hfa, hfb]
  simp [hpos]

theorem runBisection_valid (f : ℚ → Option ℚ) (a b tol : ℚ) (max_iter : ℕ)
    (f_a f_b : ℚ) (hfa : f a = some f_a) (hfb : f b = some f_b)
    (hpos : ¬ f_a * f_b > 0) :
    runBisection f a b tol max_iter
      = ((bisectLoop f tol max_iter (initState a b)).1,
         ofExit (bisectLoop f tol max_iter (initState a b)).2) := by
  rw [runBisection, hfa, hfb]
  simp [hpos]

/-! Concrete runs used as witnesses and counterexamples -/

/-- Evaluation of the run `f(x) = x - 1`, `a = 0`, `b = 2`, `tol = 1e-9`,
`max_iter = 2`: the first midpoint is `1` and `f(1) = 0`, so the run stops
at once with an exact root. -/
theorem run_eval_exact :
    runBisection (fun x => some (x - 1)) 0 2 (1 / 1000000000) 2
      = (⟨0, 2, 0, 2, 1, [⟨1, 0, 2, 1, 1, 0⟩]⟩, Outcome.exactRoot 1) := by
  rw [runBisection_valid (fun x => some (x - 1)) 0 2 (1 / 1000000000) 2 (-1) 1
    (by norm_num) (by norm_num) (by norm_num)]
  rw [bisectLoop_exact (fun x => some (x - 1)) (1 / 1000000000) 2 (initState 0 2) 0
    (by show some ((0 : ℚ) + (2 - 0) / 2 - 1) = some 0; norm_num) rfl]
  show ((⟨0, 2, 0, 2, 0 + 1, [] ++ [⟨0 + 1, 0, 2, (2 - 0) / 2, 0 + (2 - 0) / 2, 0⟩]⟩ :
      EngineState), ofExit (LoopExit.exactRoot (0 + (2 - 0) / 2))) = _
  norm_num [ofExit]


/-- Evaluation of Scenario C: `f(x) = 1/x` on `[-1, 1]`: the first midpoint
is `0`, where the evaluator is undefined, so the run stops with
`UndefinedEncountered` at iteration 1 and an empty trace. -/
theorem run_eval_undef :
    runBisection (fun x : ℚ => if x = 0 then none else some x⁻¹) (-1) 1 (1 / 100) 100
      = (⟨-1, 1, -1, 1, 1, []⟩, Outcome.undefinedEncountered 0 1) := by
  rw [runBisection_valid (fun x : ℚ => if x = 0 then none else some x⁻¹)
    (-1) 1 (1 / 100) 100 (-1) 1
    (by show (if (-1 : ℚ) = 0 then none else some (-1 : ℚ)⁻¹) = some (-1); norm_num)
    (by show (if (1 : ℚ) = 0 then none else some (1 : ℚ)⁻¹) = some 1; norm_num)
    (by norm_num)]
  rw [bisectLoop_none (fun x : ℚ => if x = 0 then none else some x⁻¹)
    (1 / 100) 100 (initState (-1) 1)
    (by show (if ((-1 : ℚ) + (1 - -1) / 2) = 0
          then none else some ((-1 : ℚ) + (1 - -1) / 2)⁻¹) = none
        norm_num)]
  show ((⟨-1, 1, -1, 1, 0 + 1, []⟩ : EngineState),
      ofExit (LoopExit.undefinedEncountered ((-1 : ℚ) + (1 - -1) / 2) (0 + 1))) = _
  norm_num [ofExit]

/-- Evaluation of the reversed-bounds run `f(x) = x - 1/2`, `a = 2`, `b = 0`,
`tol = 0`, `max_iter = 10`: the half-width is `-1 < 0 = tol`, so the very
first iteration stops through the tolerance test. -/
theorem run_eval_reversed :
    runBisection (fun x => some (x - 1 / 2)) 2 0 0 10
      = (⟨2, 0, 2, 0, 1, [⟨1, 2, 0, -1, 1, 1 / 2⟩]⟩,
         Outcome.approximateRoot 1 (-1)) := by
  rw [runBisection_valid (fun x => some (x - 1 / 2)) 2 0 0 10 (3 / 2) (-(1 / 2))
    (by show some ((2 : ℚ) - 1 / 2) = some (3 / 2); norm_num)
    (by show some ((0 : ℚ) - 1 / 2) = some (-(1 / 2)); norm_num)
    (by norm_num)]
  rw [bisectLoop_tol (fun x => some (x - 1 / 2)) 0 10 (initState 2 0) (1 / 2)
    (by show some ((2 : ℚ) + (0 - 2) / 2 - 1 / 2) = some (1 / 2); norm_num)
    (by norm_num)
    (by show ((0 : ℚ) - 2) / 2 < 0; norm_num)]
  show ((⟨2, 0, 2, 0, 0 + 1, [] ++ [⟨0 + 1, 2, 0, (0 - 2) / 2, 2 + (0 - 2) / 2, 1 / 2⟩]⟩ :
      EngineState),
      ofExit (LoopExit.approximateRoot ((2 : ℚ) + (0 - 2) / 2) (((0 : ℚ) - 2) / 2))) = _
  norm_num [ofExit]

/-- Evaluation of one continuing pass of `f(x) = x` on `[0, 1]` with
`tol = 0`: the midpoint `1/2` has positive value and `f(0) * f(1/2) = 0` is
not `< 0`, so the pass keeps the right half `[1/2, 1]`. -/
theorem loopStep_eval :
    loopStep (fun x : ℚ => some x) 0 5 (initState 0 1)
      = some ⟨0, 1, 1 / 2, 1, 1, [⟨1, 0, 1, 1 / 2, 1 / 2, 1 / 2⟩]⟩ := by
  rw [loopStep]
  norm_num [initState, selectInterval, prodNeg]


/-! Claim theorems -/

/-- C1: for every run with `tol > 0` and `max_iter ≥ 1`, the bisection loop
terminates with the iteration counter at most `max_iter`, and at most
`max_iter` iteration records are produced. -/
theorem C1_termination_bound (f : ℚ → Option ℚ) (a b tol : ℚ) (max_iter : ℕ)
    (htol : 0 < tol) (hmax : 1 ≤ max_iter) :
    (runBisection f a b tol max_iter).1.iteraciones ≤ max_iter
      ∧ (runBisection f a b tol max_iter).1.rows.length ≤ max_iter := by
  rcases hfa : f a with _ | fa
  · rw [runBisection_undef_a f a b tol max_iter hfa]
    exact ⟨Nat.zero_le _, Nat.zero_le _⟩
  · rcases hfb : f b with _ | fb
    · rw [runBisection_undef_b f a b tol max_iter fa hfa hfb]
      exact ⟨Nat.zero_le _, Nat.zero_le _⟩
    · by_cases hs : fa * fb > 0
      · rw [runBisection_sameSign f a b tol max_iter fa fb hfa hfb hs]
        exact ⟨Nat.zero_le _, Nat.zero_le _⟩
      · rw [runBisection_valid f a b tol max_iter fa fb hfa hfb hs]
        have hiter := loop_iters_le f tol max_iter (initState a b) hmax
        refine ⟨hiter, ?_⟩
        show (bisectLoop f tol max_iter (initState a b)).1.rows.length ≤ max_iter
        refine le_trans ?_ hiter
        have htr := loop_trace f tol max_iter (initState a b) rfl rfl
        rcases hexit : (bisectLoop f tol max_iter (initState a b)).2 with x | ⟨x, e⟩ | x | ⟨x, n⟩
        · exact le_of_eq (htr.2.2.1 (fun x' n' hq => by rw [hexit] at hq; cases hq))
        · exact le_of_eq (htr.2.2.1 (fun x' n' hq => by rw [hexit] at hq; cases hq))
        · exact le_of_eq (htr.2.2.1 (fun x' n' hq => by rw [hexit] at hq; cases hq))
        · have := htr.2.1 x n hexit
          omega

/-- C1 witness at `f(x) = x - 1`, `a = 0`, `b = 2`, `tol = 1`, `max_iter = 1`. -/
theorem C1_termination_bound_witness :
    (0 : ℚ) < 1 ∧ 1 ≤ 1
      ∧ (runBisection (fun x => some (x - 1)) 0 2 1 1).1.iteraciones ≤ 1
      ∧ (runBisection (fun x => some (x - 1)) 0 2 1 1).1.rows.length ≤ 1 := by
  refine ⟨by norm_num, le_refl 1, ?_⟩
  exact C1_termination_bound (fun x => some (x - 1)) 0 2 1 1 (by norm_num) (le_refl 1)

/-- C2: every record of a run from bounds `(a, b)` has
`halfWidth = (b - a) / 2 ^ index`: the bracket width is exactly halved at
every iteration. -/
theorem C2_monotonic_width (f : ℚ → Option ℚ) (a b tol : ℚ) (max_iter : ℕ)
    (r : IterationRecord) (hr : r ∈ (runBisection f a b tol max_iter).1.rows) :
    r.halfWidth = (b - a) / 2 ^ r.index := by
  rcases hfa : f a with _ | fa
  · rw [runBisection_undef_a f a b tol max_iter hfa] at hr
    cases hr
  · rcases hfb : f b with _ | fb
    · rw [runBisection_undef_b f a b tol max_iter fa hfa hfb] at hr
      cases hr
    · by_cases hs : fa * fb > 0
      · rw [runBisection_sameSign f a b tol max_iter fa fb hfa hfb hs] at hr
        cases hr
      · rw [runBisection_valid f a b tol max_iter fa fb hfa hfb hs] at hr
        refine loop_halfWidth f tol max_iter (b - a) (initState a b) ?_ ?_ r hr
        · show b - a = (b - a) / 2 ^ (0 : ℕ)
          norm_num
        · intro r' hr'
          cases hr'

/-- C2 witness: the single record of the run `f(x) = x - 1` on `[0, 2]` has
index 1 and half-width `(2 - 0) / 2¹ = 1`. -/
theorem C2_monotonic_width_witness :
    (⟨1, 0, 2, 1, 1, 0⟩ : IterationRecord)
        ∈ (runBisection (fun x => some (x - 1)) 0 2 (1 / 1000000000) 2).1.rows
      ∧ (⟨1, 0, 2, 1, 1, 0⟩ : IterationRecord).halfWidth
          = ((2 : ℚ) - 0) / 2 ^ (⟨1, 0, 2, 1, 1, 0⟩ : IterationRecord).index := by
  have hmem : (⟨1, 0, 2, 1, 1, 0⟩ : IterationRecord)
      ∈ (runBisection (fun x => some (x - 1)) 0 2 (1 / 1000000000) 2).1.rows := by
    rw [run_eval_exact]
    exact List.mem_singleton.mpr rfl
  exact ⟨hmem,
    C2_monotonic_width (fun x => some (x - 1)) 0 2 (1 / 1000000000) 2 _ hmem⟩

/-- C3: if both endpoint values are defined and their product is strictly
positive, the run ends with the same-sign `InvalidBracket` outcome and the
trace is empty. -/
theorem C3_same_sign_invalid (f : ℚ → Option ℚ) (a b tol : ℚ) (max_iter : ℕ)
    (f_a f_b : ℚ) (hfa : f a = some f_a) (hfb : f b = some f_b)
    (hpos : f_a * f_b > 0) :
    (runBisection f a b tol max_iter).2 = Outcome.invalidBracketSameSign
      ∧ (runBisection f a b tol max_iter).1.rows = [] := by
  rw [runBisection_sameSign f a b tol max_iter f_a f_b hfa hfb hpos]
  exact ⟨rfl, rfl⟩

/-- C3 witness at the constant function 1 on `[0, 1]` (Scenario B shape). -/
theorem C3_same_sign_invalid_witness :
    (fun _ : ℚ => some (1 : ℚ)) 0 = some 1
      ∧ (fun _ : ℚ => some (1 : ℚ)) 1 = some 1
      ∧ (1 : ℚ) * 1 > 0
      ∧ (runBisection (fun _ : ℚ => some (1 : ℚ)) 0 1 1 1).2
          = Outcome.invalidBracketSameSign
      ∧ (runBisection (fun _ : ℚ => some (1 : ℚ)) 0 1 1 1).1.rows = [] := by
  refine ⟨rfl, rfl, by norm_num, ?_⟩
  have := C3_same_sign_invalid (fun _ : ℚ => some 1) 0 1 1 1 1 1 rfl rfl (by norm_num)
  exact this

/-- C4: a run that ends because the midpoint of iteration `n` was undefined
returns exactly the records of iterations `1 .. n-1` (no record is appended
for the failing iteration `n`, so the trace is empty when `n = 1`). -/
theorem C4_undefined_trace (f : ℚ → Option ℚ) (a b tol : ℚ) (max_iter : ℕ)
    (x : ℚ) (n : ℕ)
    (h : (runBisection f a b tol max_iter).2 = Outcome.undefinedEncountered x n) :
    (runBisection f a b tol max_iter).1.rows.length = n - 1
      ∧ (runBisection f a b tol max_iter).1.rows.map IterationRecord.index
          = List.range' 1 (n - 1)
      ∧ 1 ≤ n := by
  rcases hfa : f a with _ | fa
  · rw [runBisection_undef_a f a b tol max_iter hfa] at h
    cases h
  · rcases hfb : f b with _ | fb
    · rw [runBisection_undef_b f a b tol max_iter fa hfa hfb] at h
      cases h
    · by_cases hs : fa * fb > 0
      · rw [runBisection_sameSign f a b tol max_iter fa fb hfa hfb hs] at h
        cases h
      · rw [runBisection_valid f a b tol max_iter fa fb hfa hfb hs] at h ⊢
        dsimp only at h ⊢
        have htr := loop_trace f tol max_iter (initState a b) rfl rfl
        rcases hexit : (bisectLoop f tol max_iter (initState a b)).2 with y | ⟨y, e⟩ | y | ⟨y, m⟩
        · rw [hexit] at h; simp [ofExit] at h
        · rw [hexit] at h; simp [ofExit] at h
        · rw [hexit] at h; simp [ofExit] at h
        · rw [hexit] at h
          simp only [ofExit, Outcome.undefinedEncountered.injEq] at h
          obtain ⟨hx, hn⟩ := h
          subst hn
          have hlen := htr.2.1 y m hexit
          refine ⟨by omega, ?_, by omega⟩
          rw [htr.1]
          congr 1
          omega

/-- C4 witness: Scenario C, `f(x) = 1/x` on `[-1, 1]`, whose first midpoint
`0` is undefined; the run reports iteration 1 and the trace is empty. -/
theorem C4_undefined_trace_witness :
    (runBisection (fun x : ℚ => if x = 0 then none else some x⁻¹)
        (-1) 1 (1 / 100) 100).2 = Outcome.undefinedEncountered 0 1
      ∧ (runBisection (fun x : ℚ => if x = 0 then none else some x⁻¹)
          (-1) 1 (1 / 100) 100).1.rows.length = 1 - 1
      ∧ (runBisection (fun x : ℚ => if x = 0 then none else some x⁻¹)
          (-1) 1 (1 / 100) 100).1.rows.map IterationRecord.index
            = List.range' 1 (1 - 1)
      ∧ 1 ≤ 1 := by
  have h : (runBisection (fun x : ℚ => if x = 0 then none else some x⁻¹)
      (-1) 1 (1 / 100) 100).2 = Outcome.undefinedEncountered 0 1 := by
    rw [run_eval_undef]
  exact ⟨h, C4_undefined_trace (fun x : ℚ => if x = 0 then none else some x⁻¹)
    (-1) 1 (1 / 100) 100 0 1 h⟩


/-- C5: the guarded evaluator is total: it returns the finite value exactly
when the raw evaluator produces one, and returns the UNDEFINED sentinel
exactly when the raw evaluator raises or produces a complex value, NaN, or
an infinity; no error escapes it. -/
theorem C5_evaluate_total (g : ℚ → RawResult) (x : ℚ) :
    (∀ v : ℚ, fGuard g x = some v ↔ g x = RawResult.ok v)
    ∧ (fGuard g x = none ↔
        (g x = RawResult.raised ∨ g x = RawResult.complexVal
          ∨ g x = RawResult.nanVal ∨ g x = RawResult.infVal)) := by
  cases hg : g x <;> simp [fGuard, hg]

/-- C6: the interval selection uses the strict test `f(a) * value < 0`: a
strictly negative product moves `b` to the midpoint, while any non-negative
product (a zero product included) moves `a` to the midpoint and keeps the
right half. -/
theorem C6_selection_strict (f : ℚ → Option ℚ) (a_iter b_iter x_new v va : ℚ)
    (hfa : f a_iter = some va) :
    (va * v < 0 → selectInterval f a_iter b_iter x_new v = (a_iter, x_new))
    ∧ (0 ≤ va * v → selectInterval f a_iter b_iter x_new v = (x_new, b_iter)) := by
  constructor
  · intro hneg
    simp [selectInterval, hfa, prodNeg_some, hneg]
  · intro hnn
    simp [selectInterval, hfa, prodNeg_some, not_lt.mpr hnn]

/-- C6 witness: a zero product (`f(a) = 0`, `value = 1`) keeps the right
half. -/
theorem C6_selection_strict_witness :
    (fun _ : ℚ => some (0 : ℚ)) 0 = some 0
    ∧ (0 : ℚ) ≤ 0 * 1
    ∧ selectInterval (fun _ : ℚ => some (0 : ℚ)) 0 1 (1 / 2) 1 = (1 / 2, 1) := by
  refine ⟨rfl, by norm_num, ?_⟩
  exact (C6_selection_strict (fun _ : ℚ => some 0) 0 1 (1 / 2) 1 0 rfl).2 (by norm_num)

/-- C7 counterexample: on `f(x) = x - 1`, `a = 0`, `b = 2`, `tol = 1e-9`,
`max_iter = 2` the first midpoint is exactly `1` and `f(1) = 0`, so the run
ends with `ExactRoot(1)` after one iteration — not with
`MaxIterationsReached` after two. -/
theorem C7_counterexample :
    (runBisection (fun x => some (x - 1)) 0 2 (1 / 1000000000) 2).2
        = Outcome.exactRoot 1
      ∧ (runBisection (fun x => some (x - 1)) 0 2 (1 / 1000000000) 2).1.iteraciones
          = 1 := by
  rw [run_eval_exact]
  exact ⟨rfl, rfl⟩

/-- C7 amended: the run `f(x) = x - 1`, `a = 0`, `b = 2`, `tol = 1e-9`,
`max_iter = 2` returns `ExactRoot(1)` after exactly one iteration, with one
trace record. -/
theorem C7_amended_exact_root :
    (runBisection (fun x => some (x - 1)) 0 2 (1 / 1000000000) 2).2
        = Outcome.exactRoot 1
      ∧ (runBisection (fun x => some (x - 1)) 0 2 (1 / 1000000000) 2).1.iteraciones
          = 1
      ∧ (runBisection (fun x => some (x - 1)) 0 2 (1 / 1000000000) 2).1.rows.length
          = 1 := by
  rw [run_eval_exact]
  exact ⟨rfl, rfl, rfl⟩

/-- C8 counterexample: with reversed bounds `a = 2 > 0 = b` (which the code
does not rule out) and `tol = 0`, the run `f(x) = x - 1/2` passes bracket
validation and stops through the tolerance test `c < tol` with
`ApproximateRoot`, because the half-width `c = -1` is negative. -/
theorem C8_counterexample :
    (runBisection (fun x => some (x - 1 / 2)) 2 0 0 10).2
      = Outcome.approximateRoot 1 (-1) := by
  rw [run_eval_reversed]

/-- C8 amended: with `tol = 0` and `a < b`, the tolerance stop is
unreachable: no run returns `ApproximateRoot`. -/
theorem C8_amended_no_tolerance_stop (f : ℚ → Option ℚ) (a b : ℚ) (max_iter : ℕ)
    (hab : a < b) (x err : ℚ) :
    (runBisection f a b 0 max_iter).2 ≠ Outcome.approximateRoot x err := by
  intro h
  rcases hfa : f a with _ | fa
  · rw [runBisection_undef_a f a b 0 max_iter hfa] at h
    cases h
  · rcases hfb : f b with _ | fb
    · rw [runBisection_undef_b f a b 0 max_iter fa hfa hfb] at h
      cases h
    · by_cases hs : fa * fb > 0
      · rw [runBisection_sameSign f a b 0 max_iter fa fb hfa hfb hs] at h
        cases h
      · rw [runBisection_valid f a b 0 max_iter fa fb hfa hfb hs] at h
        dsimp only at h
        rcases hexit : (bisectLoop f 0 max_iter (initState a b)).2
          with y | ⟨y, e⟩ | y | ⟨y, m⟩
        · rw [hexit] at h
          simp [ofExit] at h
        · exact loop_no_tol_exit f 0 max_iter (initState a b) le_rfl hab y e hexit
        · rw [hexit] at h
          simp [ofExit] at h
        · rw [hexit] at h
          simp [ofExit] at h

/-- C8 witness for the amended claim at `f(x) = x - 1` on `[0, 2]`. -/
theorem C8_amended_no_tolerance_stop_witness :
    (0 : ℚ) < 2
      ∧ (runBisection (fun x => some (x - 1)) 0 2 0 1).2
          ≠ Outcome.approximateRoot 5 5 := by
  exact ⟨by norm_num,
    C8_amended_no_tolerance_stop (fun x => some (x - 1)) 0 2 1 (by norm_num) 5 5⟩

/-- C9: a run never mutates the user-supplied bounds: the `a` and `b` fields
of the final state still hold the initial inputs on every exit path (the
loop works only on the copies `a_iter`, `b_iter`). -/
theorem C9_inputs_not_mutated (f : ℚ → Option ℚ) (a b tol : ℚ) (max_iter : ℕ) :
    (runBisection f a b tol max_iter).1.a = a
      ∧ (runBisection f a b tol max_iter).1.b = b := by
  rcases hfa : f a with _ | fa
  · rw [runBisection_undef_a f a b tol max_iter hfa]
    exact ⟨rfl, rfl⟩
  · rcases hfb : f b with _ | fb
    · rw [runBisection_undef_b f a b tol max_iter fa hfa hfb]
      exact ⟨rfl, rfl⟩
    · by_cases hs : fa * fb > 0
      · rw [runBisection_sameSign f a b tol max_iter fa fb hfa hfb hs]
        exact ⟨rfl, rfl⟩
      · rw [runBisection_valid f a b tol max_iter fa fb hfa hfb hs]
        exact loop_frame f tol max_iter (initState a b)

/-- C10 counterexample: with `f(x) = x` on `[0, 1]` validation passes with
product `f(0) * f(1) = 0 ≤ 0`, but the state reached at the start of
iteration 2 is the bracket `[1/2, 1]`, whose endpoint values are defined
with product `1/2 > 0`: the non-strict sign invariant is not preserved. -/
theorem C10_counterexample :
    (fun x : ℚ => some x) 0 = some 0
      ∧ (fun x : ℚ => some x) 1 = some 1
      ∧ (0 : ℚ) * 1 ≤ 0
      ∧ ReachesIter (fun x : ℚ => some x) 0 5 (initState 0 1)
          ⟨0, 1, 1 / 2, 1, 1, [⟨1, 0, 1, 1 / 2, 1 / 2, 1 / 2⟩]⟩
      ∧ (fun x : ℚ => some x)
          (⟨0, 1, 1 / 2, 1, 1, [⟨1, 0, 1, 1 / 2, 1 / 2, 1 / 2⟩]⟩ :
            EngineState).a_iter = some (1 / 2)
      ∧ (fun x : ℚ => some x)
          (⟨0, 1, 1 / 2, 1, 1, [⟨1, 0, 1, 1 / 2, 1 / 2, 1 / 2⟩]⟩ :
            EngineState).b_iter = some 1
      ∧ ¬ ((1 : ℚ) / 2 * 1 ≤ 0) := by
  refine ⟨rfl, rfl, by norm_num, ?_, rfl, rfl, by norm_num⟩
  exact ReachesIter.step _ _ _ (ReachesIter.refl _) loopStep_eval

/-- C10 amended: if validation succeeds with a strict sign change
`f(a₀) * f(b₀) < 0`, then every state the loop reaches at the start of an
iteration still has defined endpoint values with a strictly negative
product. -/
theorem C10_amended_strict_sign_invariant (f : ℚ → Option ℚ) (a0 b0 tol : ℚ)
    (max_iter : ℕ) (fa fb : ℚ) (hfa : f a0 = some fa) (hfb : f b0 = some fb)
    (hsign : fa * fb < 0) (s : EngineState)
    (hreach : ReachesIter f tol max_iter (initState a0 b0) s) :
    ∃ va vb, f s.a_iter = some va ∧ f s.b_iter = some vb ∧ va * vb < 0 := by
  suffices h : ∀ s0 t, ReachesIter f tol max_iter s0 t →
      (∃ va vb, f s0.a_iter = some va ∧ f s0.b_iter = some vb ∧ va * vb < 0) →
      (∃ va vb, f t.a_iter = some va ∧ f t.b_iter = some vb ∧ va * vb < 0) by
    exact h (initState a0 b0) s hreach ⟨fa, fb, hfa, hfb, hsign⟩
  intro s0 t ht
  induction ht with
  | refl => exact id
  | step t1 t2 h1 hstep ih =>
      intro h0
      rcases ih h0 with ⟨va, vb, h1a, h1b, hp⟩
      exact loopStep_sign f tol max_iter t1 t2 hstep va vb h1a h1b hp

/-- C10 witness for the amended claim: `f(x) = x` on `[-1, 1]` at the
initial state. -/
theorem C10_amended_strict_sign_invariant_witness :
    (fun x : ℚ => some x) (-1) = some (-1)
      ∧ (fun x : ℚ => some x) 1 = some 1
      ∧ (-1 : ℚ) * 1 < 0
      ∧ ∃ va vb, (fun x : ℚ => some x) (initState (-1) 1).a_iter = some va
          ∧ (fun x : ℚ => some x) (initState (-1) 1).b_iter = some vb
          ∧ va * vb < 0 := by
  refine ⟨rfl, rfl, by norm_num, ?_⟩
  exact C10_amended_strict_sign_invariant (fun x : ℚ => some x) (-1) 1 0 5 (-1) 1
    rfl rfl (by norm_num) (initState (-1) 1) (ReachesIter.refl _)

end Biseccion
